import Mathlib

/-!
Verification development for the gin-bot scheduler and memory-routing core.

This file gives a shallow embedding, in Lean 4, of the hybrid task scheduler
(`AddTask` / `ListTasks` / `RemoveTask` / `ReloadPeriodicTasks` / the one-shot
ZSet poller) and of the memory classification and routing pipeline
(`classifyWithRegex`, the fallback branches of `classifyWithAI`, the parsing
and routing steps of `SaveMessageToRAG`, `IsBotActive`, `IsRAGEnabled`).

Modelling conventions:
- The Redis-backed durable store is modelled as explicit state: association
  lists for the two hashes (`tasks:oneshot:data`, `tasks:periodic:data`) and a
  list of `(member, score)` pairs for the sorted set `tasks:oneshot:schedule`.
  `HSet` / `ZAdd` are upserts, as in Redis.  `database.RDB == nil` is the
  `connected := false` state.
- Tasks are stored in the hashes as `ScheduledTask` values rather than as their
  JSON encodings: the code only ever stores `json.Marshal` of a
  `ScheduledTask`, and unmarshalling such a value always succeeds, so the
  marshal/unmarshal round trip is the identity on the stored data.
- The cron engine (`robfig/cron`) is external; whether a schedule expression
  parses is taken as a boolean-valued function `cronValid` passed explicitly.
  A registered cron entry records the entry id handed out by the engine and
  the captured task fields (the closure sends "【周期提醒】" ++ content to the
  task's destination).
- `GlobalSender` is modelled by a `senderSet` flag plus an accumulating list
  of `(groupID, userID, content)` deliveries in the state.
- Go's `int64`/`uint` become `Int`/`Nat`; wall-clock times are explicit
  arguments (`nowSec` in Unix seconds, `nowNano` in nanoseconds).
- Go string primitives used by the code (`strings.Split` on "|",
  `strings.Contains`, `strings.HasPrefix`, `strings.TrimSpace`,
  `strings.ToLower`, `fmt.Sprintf` with `%d`) are re-implemented below as
  structurally recursive functions over `List Char` so that every definition
  is kernel-executable.  Go's `ToLower`/`TrimSpace` are Unicode-aware; the
  ASCII behaviour modelled here agrees with them on every string these
  claims touch (tier tokens, "true"/"false", and CJK text, which has no case).
-/

/-- Does the first list occur as a prefix of the second?  Models the prefix
test underlying `strings.HasPrefix`. -/
def listStarts : List Char → List Char → Bool
  | [], _ => true
  | _ :: _, [] => false
  | p :: ps, c :: cs => p == c && listStarts ps cs

/-- Does `sub` occur as a contiguous run inside the second list?  Models the
substring search underlying `strings.Contains`. -/
def listContainsSub (sub : List Char) : List Char → Bool
  | [] => sub.isEmpty
  | c :: cs => listStarts sub (c :: cs) || listContainsSub sub cs

/-- Go `strings.Contains(s, sub)`. -/
def goContains (s sub : String) : Bool :=
  listContainsSub sub.data s.data

/-- Go `strings.HasPrefix(s, pre)`. -/
def goStartsWith (s pre : String) : Bool :=
  listStarts pre.data s.data

/-- Split a character list at every `'|'`.  Always returns at least one
piece, like Go `strings.Split`. -/
def splitBarChars : List Char → List (List Char)
  | [] => [[]]
  | c :: cs =>
    let r := splitBarChars cs
    if c == '|' then [] :: r
    else
      match r with
      | [] => [[c]]
      | h :: t => (c :: h) :: t

/-- Go `strings.Split(s, "|")`. -/
def goSplitBar (s : String) : List String :=
  (splitBarChars s.data).map String.mk

/-- ASCII whitespace test for the trimming below. -/
def isSpaceChar (c : Char) : Bool :=
  c == ' ' || c == '\t' || c == '\n' || c == '\r'

/-- Go `strings.TrimSpace` (ASCII fragment). -/
def goTrim (s : String) : String :=
  String.mk (((s.data.dropWhile isSpaceChar).reverse.dropWhile isSpaceChar).reverse)

/-- Lower-case a single ASCII letter, leaving everything else unchanged. -/
def lowerChar (c : Char) : Char :=
  if 'A' ≤ c ∧ c ≤ 'Z' then Char.ofNat (c.toNat + 32) else c

/-- Go `strings.ToLower` (ASCII fragment). -/
def goToLower (s : String) : String :=
  String.mk (s.data.map lowerChar)

/-- Decimal digits of `n`, least significant first, with explicit fuel so the
definition is structurally recursive and kernel-executable. -/
def natDigitsRevGo : Nat → Nat → List Nat
  | 0, _ => []
  | fuel + 1, n => if n < 10 then [n] else n % 10 :: natDigitsRevGo fuel (n / 10)

/-- Decimal digits of `n`, least significant first. -/
def natDigitsRev (n : Nat) : List Nat :=
  natDigitsRevGo (n + 1) n

/-- Reassemble a least-significant-first digit list into a number. -/
def undigits : List Nat → Nat
  | [] => 0
  | d :: ds => d + 10 * undigits ds

/-- The character for a decimal digit. -/
def digitChar (d : Nat) : Char :=
  Char.ofNat (48 + d)

/-- Decimal rendering of a natural number; models `%d` in `fmt.Sprintf`. -/
def natDec (n : Nat) : String :=
  String.mk (((natDigitsRev n).map digitChar).reverse)

/-- Decimal rendering of an integer; models `%d` in `fmt.Sprintf`. -/
def intDec (i : Int) : String :=
  if i < 0 then "-" ++ natDec i.natAbs else natDec i.natAbs

/-- The value of a decimal digit character, if it is one. -/
def digitVal (c : Char) : Option Nat :=
  if '0' ≤ c ∧ c ≤ '9' then some (c.toNat - 48) else none

/-- Parse a run of decimal digits with an accumulator; any non-digit fails. -/
def parseDigitsAcc : Nat → List Char → Option Nat
  | acc, [] => some acc
  | acc, c :: cs =>
    match digitVal c with
    | some d => parseDigitsAcc (acc * 10 + d) cs
    | none => none

/-- Parse a non-empty run of decimal digits. -/
def parseNatChars : List Char → Option Nat
  | [] => none
  | l => parseDigitsAcc 0 l

/-- Go `strconv.ParseInt(qq, 10, 64)` with the error ignored, as in
`SaveMessageToRAG`: an optional sign followed by digits; an unparseable
string yields `0`, the value Go returns alongside the ignored error.  (Go
additionally errors on 64-bit overflow; QQ identifiers never reach it.) -/
def parseQQ (qq : String) : Int :=
  match qq.data with
  | '+' :: rest => match parseNatChars rest with | some n => (n : Int) | none => 0
  | '-' :: rest => match parseNatChars rest with | some n => -(n : Int) | none => 0
  | l => match parseNatChars l with | some n => (n : Int) | none => 0

/-- Lookup in a Redis hash (`HGet`), modelled on an association list. -/
def hget {α : Type} (h : List (String × α)) (k : String) : Option α :=
  (h.find? (fun p => p.1 == k)).map (fun p => p.2)

/-- Upsert into a Redis hash (`HSet`). -/
def hset {α : Type} (h : List (String × α)) (k : String) (v : α) : List (String × α) :=
  (k, v) :: h.filter (fun p => p.1 != k)

/-- Delete from a Redis hash (`HDel`); deleting an absent key is a no-op. -/
def hdel {α : Type} (h : List (String × α)) (k : String) : List (String × α) :=
  h.filter (fun p => p.1 != k)

/-- All values of a Redis hash (`HVals`). -/
def hvals {α : Type} (h : List (String × α)) : List α :=
  h.map (fun p => p.2)

/-- Upsert into a Redis sorted set (`ZAdd`): `member` with `score`. -/
def zadd (z : List (String × Int)) (member : String) (score : Int) : List (String × Int) :=
  (member, score) :: z.filter (fun p => p.1 != member)

/-- Remove a member from a Redis sorted set (`ZRem`). -/
def zrem (z : List (String × Int)) (member : String) : List (String × Int) :=
  z.filter (fun p => p.1 != member)

/-- Members with `lo ≤ score ≤ hi` (`ZRangeByScore`).  The poller calls this
with `Min: "0"`, so negative scores are never returned.  Redis orders the
result by score; no property below depends on the order, so insertion order
is kept. -/
def zrangeByScore (z : List (String × Int)) (lo hi : Int) : List String :=
  (z.filter (fun p => decide (lo ≤ p.2) && decide (p.2 ≤ hi))).map (fun p => p.1)

/-- The `ScheduledTask` struct of the scheduler (`service` package). -/
structure ScheduledTask where
  id : String
  type : String
  content : String
  groupID : Int
  userID : Int
  timeExpr : String
  targetAt : Int
  deriving DecidableEq, Repr

/-- One entry registered with the cron engine by `CronManager.AddFunc`: the
engine's entry id plus the fields captured by the registered closure (the
closure sends "【周期提醒】" ++ content to (groupID, userID)). -/
structure CronEntry where
  entryID : Nat
  timeExpr : String
  groupID : Int
  userID : Int
  content : String
  deriving DecidableEq, Repr

/-- The scheduler's state: the durable Redis structures, the in-process cron
engine mirror, and the delivery log of `GlobalSender`. -/
structure SchedState where
  connected : Bool
  zset : List (String × Int)
  oneshot : List (String × ScheduledTask)
  periodic : List (String × ScheduledTask)
  cronEntries : List CronEntry
  periodicEntries : List (String × Nat)
  nextEntryID : Nat
  senderSet : Bool
  sent : List (Int × Int × String)
  deriving DecidableEq, Repr

/-- The state right after `InitScheduler` with a reachable Redis: empty
durable structures, empty cron engine, `GlobalSender` installed. -/
def initConnected : SchedState :=
  ⟨true, [], [], [], [], [], 0, true, []⟩

/-- The id `AddTask` assigns when the caller left it empty:
`fmt.Sprintf("task_%d_%d", time.Now().UnixNano(), t.UserID)`. -/
def autoID (nowNano : Int) (userID : Int) : String :=
  "task_" ++ intDec nowNano ++ "_" ++ intDec userID

/-- The id-defaulting step at the top of `AddTask`. -/
def assignID (nowNano : Int) (t : ScheduledTask) : ScheduledTask :=
  if t.id = "" then { t with id := autoID nowNano t.userID } else t

/-- `AddTask` (scheduler, authoritative version): default the id, fail closed
when Redis is unreachable, register periodic tasks with the cron engine and
persist them in the periodic hash, and persist one-shot tasks in the one-shot
hash plus the `(targetAt, id)` sorted set. -/
def AddTask (cronValid : String → Bool) (nowNano : Int) (st : SchedState)
    (t0 : ScheduledTask) : Except String SchedState :=
  let t := assignID nowNano t0
  if st.connected then
    if t.type = "periodic" then
      if cronValid t.timeExpr then
        Except.ok { st with
          cronEntries := st.cronEntries ++
            [⟨st.nextEntryID, t.timeExpr, t.groupID, t.userID, t.content⟩],
          nextEntryID := st.nextEntryID + 1,
          periodicEntries := hset st.periodicEntries t.id st.nextEntryID,
          periodic := hset st.periodic t.id t }
      else Except.error "invalid cron expression"
    else
      Except.ok { st with
        oneshot := hset st.oneshot t.id t,
        zset := zadd st.zset t.id t.targetAt }
  else Except.error "redis not connected"

/-- The group/user filter of `ListTasks`: a `0` filter matches everything. -/
def matchesFilter (groupID userID : Int) (t : ScheduledTask) : Bool :=
  (groupID == 0 || t.groupID == groupID) && (userID == 0 || t.userID == userID)

/-- `ListTasks`: collect matching tasks from the one-shot hash, then from the
periodic hash.  When Redis is unreachable it returns the empty list — its
signature has no error channel. -/
def ListTasks (st : SchedState) (groupID userID : Int) : List ScheduledTask :=
  if st.connected then
    (hvals st.oneshot).filter (matchesFilter groupID userID) ++
      (hvals st.periodic).filter (matchesFilter groupID userID)
  else []

/-- `RemoveTask`: fail closed when Redis is unreachable; for a known periodic
id unregister the cron entry and delete the persisted entry; otherwise
best-effort delete from the one-shot sorted set and hash. -/
def RemoveTask (st : SchedState) (id : String) : Except String SchedState :=
  if st.connected then
    match hget st.periodicEntries id with
    | some entryID =>
      Except.ok { st with
        cronEntries := st.cronEntries.filter (fun e => e.entryID != entryID),
        periodicEntries := hdel st.periodicEntries id,
        periodic := hdel st.periodic id }
    | none =>
      Except.ok { st with
        zset := zrem st.zset id,
        oneshot := hdel st.oneshot id }
  else Except.error "redis not connected"

/-- One step of `ReloadPeriodicTasks`: re-register a persisted periodic task
with the cron engine and record its handle; a task whose expression the
engine rejects is logged and skipped. -/
def reloadStep (cronValid : String → Bool) (st : SchedState)
    (p : String × ScheduledTask) : SchedState :=
  if cronValid p.2.timeExpr then
    { st with
      cronEntries := st.cronEntries ++
        [⟨st.nextEntryID, p.2.timeExpr, p.2.groupID, p.2.userID, p.2.content⟩],
      nextEntryID := st.nextEntryID + 1,
      periodicEntries := hset st.periodicEntries p.1 st.nextEntryID }
  else st

/-- `ReloadPeriodicTasks`: read every persisted periodic task (`HGetAll`) and
re-register each with the cron engine, rebuilding the id→handle index. -/
def ReloadPeriodicTasks (cronValid : String → Bool) (st : SchedState) : SchedState :=
  if st.connected then st.periodic.foldl (reloadStep cronValid) st
  else st

/-- Simulated process restart: the cron engine and the id→handle index are
process-local and lost; the durable Redis structures survive. -/
def clearMem (st : SchedState) : SchedState :=
  { st with cronEntries := [], periodicEntries := [], nextEntryID := 0 }

/-- The fixed fallback text the poller sends when regenerating a proactive
reminder fails. -/
def proactiveFallbackMsg : String :=
  "记得你说今天有事，一切还顺利吗？"

/-- The content the poller dispatches for a due one-shot task: for a task
whose id carries the `proactive_` prefix the content is regenerated via
`GetProactiveCareReply` (modelled by `regen`, `none` meaning the call
errored), with the fixed fallback used when regeneration fails or returns
the empty string. -/
def dispatchContent (regen : String → Int → Option String) (t : ScheduledTask) : String :=
  if goStartsWith t.id "proactive_" then
    match regen t.content t.groupID with
    | some reply => if reply = "" then proactiveFallbackMsg else reply
    | none => proactiveFallbackMsg
  else t.content

/-- Processing of one due id inside the poller loop: fetch the content from
the one-shot hash; when absent, drop the stale index entry and move on;
otherwise dispatch through `GlobalSender` and unconditionally clean up both
the index entry and the content entry. -/
def processId (regen : String → Int → Option String) (st : SchedState)
    (id : String) : SchedState :=
  match hget st.oneshot id with
  | none => { st with zset := zrem st.zset id }
  | some t =>
    let st1 :=
      if st.senderSet then
        { st with sent := st.sent ++ [(t.groupID, t.userID, dispatchContent regen t)] }
      else st
    { st1 with zset := zrem st1.zset id, oneshot := hdel st1.oneshot id }

/-- One cycle of the `startZSetPoll` loop body: skip when Redis is
unreachable, query the sorted set for ids with `0 ≤ score ≤ now`, and process
each in turn. -/
def pollCycle (regen : String → Int → Option String) (now : Int)
    (st : SchedState) : SchedState :=
  if st.connected then (zrangeByScore st.zset 0 now).foldl (processId regen) st
  else st

/-- The first-person-disclosure substrings recognised by the fallback
classifier's regular expressions (`personalPatterns`): each regex is an
alternation of literals, so `MatchString` is exactly "contains one of these
substrings". -/
def personalPatternLiterals : List String :=
  ["我喜欢", "我爱", "我讨厌", "我不喜欢", "我偏好",
   "我是", "我叫", "我名字",
   "我的爱好", "我的兴趣", "我的习惯", "我的工作", "我的职业", "我的年龄", "我的生日",
   "我今年", "我属", "我住在", "我来自"]

/-- `classifyWithRegex`: the deterministic degraded classifier — `personal`
when any first-person-disclosure pattern matches, otherwise `chat`. -/
def classifyWithRegex (content : String) : String :=
  if personalPatternLiterals.any (fun p => goContains content p) then "personal"
  else "chat"

/-- The two failure branches of `classifyWithAI` (request error, and
unparseable or empty response): degrade to `classifyWithRegex` with
`triggered` fixed to `false`; `tag` is "fallback" for a request error and
"error" for an unparseable response. -/
def classifyWithAIFailure (content : String) (tag : String) : String :=
  classifyWithRegex content ++ "|false|" ++ tag

/-- The parsed form of a classifier response inside `SaveMessageToRAG`. -/
structure Classification where
  msgType : String
  isProactive : Bool
  proactiveReason : String
  deriving DecidableEq, Repr

/-- The whitelist string against which `SaveMessageToRAG` validates the tier,
verbatim from the source: `strings.Contains("personal|temporary|chat", msgType)`. -/
def tierWhitelist : String := "personal|temporary|chat"

/-- The defensive parse of the classifier's `tier|triggered|reason` response
in `SaveMessageToRAG` (lines 137–155): split on `|`, lower-case and trim the
tier, replace it by `chat` when `strings.Contains` on the whitelist string
fails, read `triggered` as the literal `true`, and keep the reason verbatim. -/
def parseClassifier (fullRes : String) : Classification :=
  let parts := goSplitBar fullRes
  let mt0 := if 1 ≤ parts.length then goToLower (goTrim (parts.headD "")) else "chat"
  let mt := if goContains tierWhitelist mt0 then mt0 else "chat"
  let pro := if 2 ≤ parts.length then goTrim (parts.getD 1 "") == "true" else false
  let reason := if 3 ≤ parts.length then goTrim (parts.getD 2 "") else ""
  ⟨mt, pro, reason⟩

/-- The id of a proactive follow-up task:
`fmt.Sprintf("proactive_%d", time.Now().Unix())`. -/
def proactiveID (nowSec : Int) : String :=
  "proactive_" ++ intDec nowSec

/-- The follow-up `ScheduledTask` built by the proactive branch of
`SaveMessageToRAG`: kind `once`, content `reason + "|" + content`, destined
for the originating group and (parsed) user, due four hours from now. -/
def proactiveTask (nowSec : Int) (groupID userID : Int)
    (reason content : String) : ScheduledTask :=
  ⟨proactiveID nowSec, "once", reason ++ "|" ++ content,
   groupID, userID, "", nowSec + 4 * 3600⟩

/-- Pinecone namespace for the `personal` tier (`pinecone.NamespacePersonal`). -/
def namespacePersonal : String := "personal"

/-- Pinecone namespace for the `chat` tier (`pinecone.NamespaceChat`). -/
def namespaceChat : String := "chat"

/-- The storage side effects the router can issue: the TTL-bound Redis write
of `database.SaveTemporaryMemory` (TTL in seconds), the vector upsert of
`pinecone.UpsertToNamespace`, and the local `MemberEmbedding` association row
written after a successful upsert. -/
inductive RouteEffect where
  | ttlWrite (groupID : Int) (userQQ : String) (msgID : Nat) (content : String)
      (ttlSeconds : Nat)
  | embUpsert (namespace0 : String) (vectorID : String)
  | assocCreate (vectorID : String) (refMsgID : Nat)
  deriving DecidableEq, Repr

/-- Is the effect a TTL-cache write? -/
def isTTLWrite : RouteEffect → Bool
  | RouteEffect.ttlWrite _ _ _ _ _ => true
  | _ => false

/-- The namespace of an upsert effect, if it is one. -/
def upsertNamespace : RouteEffect → Option String
  | RouteEffect.embUpsert ns _ => some ns
  | _ => none

/-- Steps 2–4 of `SaveMessageToRAG`, after the raw record was durably saved:
parse the classifier response, run the proactive branch (gated on
`isProactive && IsBotActive`, fire-and-forget: an `AddTask` error is logged,
not propagated), and issue the tier-directed storage effects.  `embedOk`
models whether `embedding.GetEmbedding` succeeded and `upsertOk` whether the
Pinecone upsert succeeded; `histID` is the raw record's row id. -/
def routeClassified (botActive embedOk upsertOk : Bool)
    (cronValid : String → Bool) (nowSec : Int) (groupID : Int) (qq : String)
    (histID : Nat) (content : String) (fullRes : String)
    (st : SchedState) : SchedState × List RouteEffect :=
  let c := parseClassifier fullRes
  let st1 :=
    if c.isProactive && botActive then
      match AddTask cronValid (nowSec * 1000000000) st
          (proactiveTask nowSec groupID (parseQQ qq) c.proactiveReason content) with
      | Except.ok s => s
      | Except.error _ => st
    else st
  let effects :=
    if c.msgType = "temporary" then
      [RouteEffect.ttlWrite groupID qq histID content 7200]
    else if c.msgType = "personal" ∨ c.msgType = "chat" then
      if embedOk then
        let ns := if c.msgType = "personal" then namespacePersonal else namespaceChat
        let vid := "msg_" ++ natDec histID
        RouteEffect.embUpsert ns vid ::
          (if upsertOk then [RouteEffect.assocCreate vid histID] else [])
      else []
    else []
  (st1, effects)

/-- A row of the `groups` configuration table (`models.Group`), restricted to
the fields the activity checks read. -/
structure GroupCfg where
  groupID : Int
  isActive : Bool
  ragEnabled : Bool
  deriving DecidableEq, Repr

/-- The gorm `First` lookup by group id used by `IsBotActive`/`IsRAGEnabled`:
`dbErr` models an infrastructure error, and an absent row is
`gorm.ErrRecordNotFound` — both surface as `result.Error != nil`. -/
def gormFirstGroup (dbErr : Bool) (db : List GroupCfg) (groupID : Int) :
    Except Unit GroupCfg :=
  if dbErr then Except.error ()
  else
    match db.find? (fun g => g.groupID == groupID) with
    | none => Except.error ()
    | some g => Except.ok g

/-- `IsBotActive`: any lookup error (including a missing row) defaults to
active. -/
def IsBotActive (dbErr : Bool) (db : List GroupCfg) (groupID : Int) : Bool :=
  match gormFirstGroup dbErr db groupID with
  | Except.error _ => true
  | Except.ok g => g.isActive

/-- `IsRAGEnabled`: any lookup error (including a missing row) defaults to
enabled. -/
def IsRAGEnabled (dbErr : Bool) (db : List GroupCfg) (groupID : Int) : Bool :=
  match gormFirstGroup dbErr db groupID with
  | Except.error _ => true
  | Except.ok g => g.ragEnabled

deriving instance DecidableEq for Except

/-! Helper lemmas. -/

theorem strData_append (s t : String) : (s ++ t).data = s.data ++ t.data := rfl

theorem strExt {s t : String} (h : s.data = t.data) : s = t := by
  cases s; cases t; cases h; rfl

theorem listStarts_append (p r : List Char) : listStarts p (p ++ r) = true := by
  induction p with
  | nil => rfl
  | cons c cs ih => simp [listStarts, ih]

theorem goStartsWith_append (s t : String) : goStartsWith (s ++ t) s = true := by
  simp [goStartsWith, strData_append, listStarts_append]

theorem proactiveID_startsWith (n : Int) :
    goStartsWith (proactiveID n) "proactive_" = true := by
  simp [proactiveID, goStartsWith_append]

theorem proactiveID_ne_empty (n : Int) : proactiveID n ≠ "" := by
  intro h
  have hd := congrArg String.data h
  rw [proactiveID, strData_append] at hd
  simp at hd

@[simp] theorem assignID_type (nn : Int) (t : ScheduledTask) :
    (assignID nn t).type = t.type := by
  unfold assignID; split <;> rfl

@[simp] theorem assignID_content (nn : Int) (t : ScheduledTask) :
    (assignID nn t).content = t.content := by
  unfold assignID; split <;> rfl

@[simp] theorem assignID_groupID (nn : Int) (t : ScheduledTask) :
    (assignID nn t).groupID = t.groupID := by
  unfold assignID; split <;> rfl

@[simp] theorem assignID_userID (nn : Int) (t : ScheduledTask) :
    (assignID nn t).userID = t.userID := by
  unfold assignID; split <;> rfl

@[simp] theorem assignID_targetAt (nn : Int) (t : ScheduledTask) :
    (assignID nn t).targetAt = t.targetAt := by
  unfold assignID; split <;> rfl

theorem assignID_of_ne (nn : Int) (t : ScheduledTask) (h : t.id ≠ "") :
    assignID nn t = t := by
  unfold assignID; simp [h]

theorem undigits_go (fuel : Nat) : ∀ n, n < fuel →
    undigits (natDigitsRevGo fuel n) = n := by
  induction fuel with
  | zero => intro n h; omega
  | succ fuel ih =>
    intro n h
    by_cases h10 : n < 10
    · simp [natDigitsRevGo, h10, undigits]
    · have hrec : n / 10 < fuel := by omega
      simp [natDigitsRevGo, h10, undigits, ih _ hrec]
      omega

theorem undigits_natDigitsRev (n : Nat) : undigits (natDigitsRev n) = n :=
  undigits_go (n + 1) n (Nat.lt_succ_self n)

theorem natDigitsRevGo_lt_10 (fuel : Nat) : ∀ n d, d ∈ natDigitsRevGo fuel n →
    d < 10 := by
  induction fuel with
  | zero => intro n d h; simp [natDigitsRevGo] at h
  | succ fuel ih =>
    intro n d h
    by_cases h10 : n < 10
    · simp [natDigitsRevGo, h10] at h; omega
    · simp [natDigitsRevGo, h10] at h
      rcases h with h | h
      · omega
      · exact ih _ _ h

theorem digitChar_inj_lt : ∀ a, a < 10 → ∀ b, b < 10 →
    digitChar a = digitChar b → a = b := by decide

theorem map_digitChar_inj : ∀ l1 l2 : List Nat, (∀ d ∈ l1, d < 10) →
    (∀ d ∈ l2, d < 10) → l1.map digitChar = l2.map digitChar → l1 = l2 := by
  intro l1
  induction l1 with
  | nil => intro l2 _ _ h; cases l2 <;> simp_all
  | cons a as ih =>
    intro l2 h1 h2 h
    cases l2 with
    | nil => simp at h
    | cons b bs =>
      simp only [List.map_cons, List.cons.injEq] at h
      have ha : a < 10 := h1 a (List.mem_cons_self a as)
      have hb : b < 10 := h2 b (List.mem_cons_self b bs)
      have hab := digitChar_inj_lt a ha b hb h.1
      have htl := ih bs (fun d hd => h1 d (List.mem_cons_of_mem a hd))
        (fun d hd => h2 d (List.mem_cons_of_mem b hd)) h.2
      rw [hab, htl]

theorem natDec_inj {m n : Nat} (h : natDec m = natDec n) : m = n := by
  unfold natDec at h
  have hlists : ((natDigitsRev m).map digitChar).reverse =
      ((natDigitsRev n).map digitChar).reverse := by
    have := congrArg String.data h
    simpa using this
  have hmaps := List.reverse_injective hlists
  have hdig := map_digitChar_inj _ _
    (fun d hd => natDigitsRevGo_lt_10 _ _ _ hd)
    (fun d hd => natDigitsRevGo_lt_10 _ _ _ hd) hmaps
  have hu := congrArg undigits hdig
  rwa [undigits_go (m + 1) m (Nat.lt_succ_self m),
    undigits_go (n + 1) n (Nat.lt_succ_self n)] at hu

theorem intDec_inj_nonneg {i j : Int} (hi : 0 ≤ i) (hj : 0 ≤ j)
    (h : intDec i = intDec j) : i = j := by
  unfold intDec at h
  rw [if_neg (by omega), if_neg (by omega)] at h
  have := natDec_inj h
  omega

theorem str_append_ne_empty (s t : String) (h : s.data ≠ []) : s ++ t ≠ "" := by
  intro he
  have hd := congrArg String.data he
  rw [strData_append] at hd
  simp only [List.append_eq_nil] at hd
  exact h hd.1

theorem autoID_ne_empty (nn u : Int) : autoID nn u ≠ "" := by
  unfold autoID
  apply str_append_ne_empty
  rw [strData_append, strData_append]
  intro h
  rw [List.append_assoc] at h
  rcases List.append_eq_nil.mp h with ⟨h1, _⟩
  exact absurd h1 (by decide)

theorem assignID_id_ne_empty (nn : Int) (t : ScheduledTask) :
    (assignID nn t).id ≠ "" := by
  unfold assignID
  split
  · exact autoID_ne_empty nn t.userID
  · next h => exact h

theorem AddTask_once_init (cv : String → Bool) (nn : Int) (t : ScheduledTask)
    (htype : t.type = "once") (hid : t.id ≠ "") :
    AddTask cv nn initConnected t =
      Except.ok { initConnected with
        oneshot := [(t.id, t)], zset := [(t.id, t.targetAt)] } := by
  unfold AddTask
  rw [assignID_of_ne nn t hid]
  simp [initConnected, htype, hset, zadd]

theorem route_proactive_core (embedOk upsertOk : Bool) (cronValid : String → Bool)
    (nowSec gid : Int) (qq : String) (histID : Nat) (content fullRes : String)
    (hpro : (parseClassifier fullRes).isProactive = true) :
    ListTasks (routeClassified true embedOk upsertOk cronValid nowSec gid qq
        histID content fullRes initConnected).1 gid (parseQQ qq) =
      [proactiveTask nowSec gid (parseQQ qq)
        (parseClassifier fullRes).proactiveReason content] := by
  unfold routeClassified
  simp only [hpro, Bool.true_and, Bool.and_true, Bool.and_self, if_true]
  rw [AddTask_once_init cronValid _ _ rfl (proactiveID_ne_empty nowSec)]
  simp [ListTasks, initConnected, hvals, matchesFilter, proactiveTask]

/-- C2: on a classifier response whose `triggered` field parses `true`, the
routing step — for every tier the response may carry, i.e. independently of
the assigned tier — creates exactly one new `once` task, queryable through
`ListTasks` with the originating group/user filters, scheduled for
`now + 4` hours, whose content is the reason joined to the original content
by `|`, destined for the originating group and (parsed) user, and whose id
carries the `proactive_` prefix that triggers the poller's regeneration
step.  (The code runs this branch when the group's bot switch is on, which
is the default; the gating itself is claim C10's subject.) -/
theorem C2_proactive_schedules_once :
    ∀ (embedOk upsertOk : Bool) (cronValid : String → Bool) (nowSec gid : Int)
      (qq : String) (histID : Nat) (content fullRes : String),
    (parseClassifier fullRes).isProactive = true →
    ListTasks (routeClassified true embedOk upsertOk cronValid nowSec gid qq
        histID content fullRes initConnected).1 gid (parseQQ qq) =
      [proactiveTask nowSec gid (parseQQ qq)
        (parseClassifier fullRes).proactiveReason content] ∧
    (proactiveTask nowSec gid (parseQQ qq)
        (parseClassifier fullRes).proactiveReason content).type = "once" ∧
    (proactiveTask nowSec gid (parseQQ qq)
        (parseClassifier fullRes).proactiveReason content).targetAt =
      nowSec + 4 * 3600 ∧
    (proactiveTask nowSec gid (parseQQ qq)
        (parseClassifier fullRes).proactiveReason content).content =
      (parseClassifier fullRes).proactiveReason ++ "|" ++ content ∧
    (proactiveTask nowSec gid (parseQQ qq)
        (parseClassifier fullRes).proactiveReason content).groupID = gid ∧
    (proactiveTask nowSec gid (parseQQ qq)
        (parseClassifier fullRes).proactiveReason content).userID = parseQQ qq ∧
    goStartsWith (proactiveTask nowSec gid (parseQQ qq)
        (parseClassifier fullRes).proactiveReason content).id "proactive_" = true ∧
    dispatchContent (fun _ _ => some "R")
      (proactiveTask nowSec gid (parseQQ qq)
        (parseClassifier fullRes).proactiveReason content) = "R" := by
  intro embedOk upsertOk cronValid nowSec gid qq histID content fullRes hpro
  refine ⟨route_proactive_core embedOk upsertOk cronValid nowSec gid qq histID
    content fullRes hpro, rfl, rfl, rfl, rfl, rfl,
    proactiveID_startsWith nowSec, ?_⟩
  simp [dispatchContent, proactiveTask, proactiveID_startsWith]

/-- Concrete instance of C2: a `temporary`-tier response with a trigger,
group 9, user "7", at second 50, schedules exactly the expected follow-up. -/
theorem C2_proactive_schedules_once_witness :
    ListTasks (routeClassified true true true (fun _ => true) 50 9 "7" 3 "hello"
        "temporary|true|worried" initConnected).1 9 (parseQQ "7") =
      [proactiveTask 50 9 (parseQQ "7")
        (parseClassifier "temporary|true|worried").proactiveReason "hello"] :=
  (C2_proactive_schedules_once true true (fun _ => true) 50 9 "7" 3 "hello"
    "temporary|true|worried" (by decide)).1

/-- C4 counterexample: with the durable backend unreachable, a store that
does contain a one-shot task yields an empty `ListTasks` result — the
unavailability is not reported to the caller (the function's signature has
no error channel), refuting the claim that every task-management operation
returns the error. -/
theorem C4_counterexample_list_silent :
    ListTasks ⟨false, [("a", 50)], [("a", ⟨"a", "once", "hi", 1, 2, "", 50⟩)],
        [], [], [], 0, true, []⟩ 0 0 = [] ∧
    (⟨false, [("a", 50)], [("a", ⟨"a", "once", "hi", 1, 2, "", 50⟩)],
        [], [], [], 0, true, []⟩ : SchedState).oneshot ≠ [] := by decide

/-- C4 (amended): when the durable backend is unreachable, `AddTask` and
`RemoveTask` fail closed and return the unavailability error to the caller;
`ListTasks`, whose signature carries no error, instead returns the empty
list, indistinguishable from "no tasks". -/
theorem C4_store_unavailable_amended :
    ∀ (st : SchedState) (cronValid : String → Bool) (nn : Int)
      (t : ScheduledTask) (id : String) (g u : Int),
    st.connected = false →
    AddTask cronValid nn st t = Except.error "redis not connected" ∧
    RemoveTask st id = Except.error "redis not connected" ∧
    ListTasks st g u = [] := by
  intro st cronValid nn t id g u h
  simp [AddTask, RemoveTask, ListTasks, h]

/-- Concrete instance of C4 (amended) on a disconnected store holding one
task. -/
theorem C4_store_unavailable_witness :
    AddTask (fun _ => true) 0
        ⟨false, [("a", 50)], [("a", ⟨"a", "once", "hi", 1, 2, "", 50⟩)],
          [], [], [], 0, true, []⟩ ⟨"x", "once", "c", 1, 2, "", 5⟩ =
      Except.error "redis not connected" ∧
    RemoveTask ⟨false, [("a", 50)], [("a", ⟨"a", "once", "hi", 1, 2, "", 50⟩)],
        [], [], [], 0, true, []⟩ "a" = Except.error "redis not connected" ∧
    ListTasks ⟨false, [("a", 50)], [("a", ⟨"a", "once", "hi", 1, 2, "", 50⟩)],
        [], [], [], 0, true, []⟩ 0 0 = [] :=
  C4_store_unavailable_amended _ (fun _ => true) 0 ⟨"x", "once", "c", 1, 2, "", 5⟩
    "a" 0 0 (by decide)

/-- C5: the tier-validity check is `strings.Contains("personal|temporary|chat",
msgType)`, a substring test.  The unknown tier value "temp" is a substring of
the whitelist, so it is NOT coerced to `chat` — and the subsequent storage
switch then matches no case, so the message is stored in no tier at all.  A
value that is not a substring, such as "foo", is coerced as the spec says.
This evaluates the code at the failing input for the code-bug record. -/
theorem C5_substring_tier_bug_eval :
    (parseClassifier "temp|false|x").msgType = "temp" ∧
    (parseClassifier "temp|false|x").msgType ≠ "chat" ∧
    (routeClassified true true true (fun _ => true) 0 1 "2" 3 "c" "temp|false|x"
        initConnected).2 = [] ∧
    (parseClassifier "foo|false|x").msgType = "chat" := by decide

theorem classifyWithRegex_cases (c : String) :
    classifyWithRegex c = "personal" ∨ classifyWithRegex c = "chat" := by
  unfold classifyWithRegex
  split
  · exact Or.inl rfl
  · exact Or.inr rfl

/-- C6: when the external classification call fails ("fallback" tag), times
out (same branch), or returns an unparseable response ("error" tag), the
regex fallback classifies "我喜欢打篮球" as `personal` and "今天天气不错" as
`chat`, and the fallback path always parses to `triggered = false`: it never
produces a proactive trigger. -/
theorem C6_fallback_classification :
    classifyWithRegex "我喜欢打篮球" = "personal" ∧
    classifyWithRegex "今天天气不错" = "chat" ∧
    (∀ content tag, tag = "fallback" ∨ tag = "error" →
      (parseClassifier (classifyWithAIFailure content tag)).isProactive = false) := by
  refine ⟨by decide, by decide, ?_⟩
  intro content tag htag
  unfold classifyWithAIFailure
  rcases classifyWithRegex_cases content with h | h <;>
    rcases htag with ht | ht <;> rw [h, ht] <;> decide

/-- Concrete instance of C6: a request failure on "我喜欢打篮球" yields no
proactive trigger. -/
theorem C6_fallback_classification_witness :
    (parseClassifier (classifyWithAIFailure "我喜欢打篮球" "fallback")).isProactive =
      false :=
  C6_fallback_classification.2.2 "我喜欢打篮球" "fallback" (Or.inl rfl)

/-- C10: for a group with no persisted configuration row (the lookup finds
nothing, which gorm reports as an error) and likewise on any lookup error,
`IsBotActive` and `IsRAGEnabled` both return `true`; in particular the
proactive follow-up path, gated on `IsBotActive`, schedules its task for a
never-configured group. -/
theorem C10_unconfigured_defaults :
    ∀ (dbErr : Bool) (db : List GroupCfg) (gid : Int),
    dbErr = true ∨ db.find? (fun g => g.groupID == gid) = none →
    IsBotActive dbErr db gid = true ∧ IsRAGEnabled dbErr db gid = true ∧
    (∀ (embedOk upsertOk : Bool) (cronValid : String → Bool) (nowSec : Int)
       (qq : String) (histID : Nat) (content fullRes : String),
      (parseClassifier fullRes).isProactive = true →
      ListTasks (routeClassified (IsBotActive dbErr db gid) embedOk upsertOk
          cronValid nowSec gid qq histID content fullRes initConnected).1
          gid (parseQQ qq) =
        [proactiveTask nowSec gid (parseQQ qq)
          (parseClassifier fullRes).proactiveReason content]) := by
  intro dbErr db gid h
  have hact : IsBotActive dbErr db gid = true := by
    rcases h with h | h <;> simp [IsBotActive, gormFirstGroup, h]
  have hrag : IsRAGEnabled dbErr db gid = true := by
    rcases h with h | h <;> simp [IsRAGEnabled, gormFirstGroup, h]
  refine ⟨hact, hrag, ?_⟩
  intro embedOk upsertOk cronValid nowSec qq histID content fullRes hpro
  rw [hact]
  exact route_proactive_core embedOk upsertOk cronValid nowSec gid qq histID
    content fullRes hpro

/-- Concrete instance of C10: an empty configuration table defaults to
active and memory-enabled, and the proactive path schedules its follow-up. -/
theorem C10_unconfigured_defaults_witness :
    IsBotActive false [] 42 = true ∧ IsRAGEnabled false [] 42 = true ∧
    ListTasks (routeClassified (IsBotActive false [] 42) true true
        (fun _ => true) 50 42 "7" 3 "hello" "chat|true|plan" initConnected).1
        42 (parseQQ "7") =
      [proactiveTask 50 42 (parseQQ "7")
        (parseClassifier "chat|true|plan").proactiveReason "hello"] := by
  have h := C10_unconfigured_defaults false [] 42 (Or.inr (by decide))
  exact ⟨h.1, h.2.1, h.2.2 true true (fun _ => true) 50 "7" 3 "hello"
    "chat|true|plan" (by decide)⟩

theorem AddTask_once_init_gen (cv : String → Bool) (nn : Int) (t : ScheduledTask)
    (htype : t.type = "once") :
    AddTask cv nn initConnected t =
      Except.ok { initConnected with
        oneshot := [((assignID nn t).id, assignID nn t)],
        zset := [((assignID nn t).id, t.targetAt)] } := by
  unfold AddTask
  simp [initConnected, htype, hset, zadd]

/-- C1: a valid `once` task added to an available durable store is returned
by `ListTasks` under matching group/user filters; once its `targetAt` has
elapsed and one cycle of the one-shot poller has run, `ListTasks` no longer
returns it and `GlobalSender` has received exactly one delivery call for it
(the whole delivery log is that one call). -/
theorem C1_once_task_lifecycle :
    ∀ (cronValid : String → Bool) (nn : Int) (regen : String → Int → Option String)
      (t : ScheduledTask) (now g u : Int) (st1 : SchedState),
    t.type = "once" → 0 ≤ t.targetAt → t.targetAt ≤ now →
    (g = 0 ∨ g = t.groupID) → (u = 0 ∨ u = t.userID) →
    AddTask cronValid nn initConnected t = Except.ok st1 →
    ListTasks st1 g u = [assignID nn t] ∧
    ListTasks (pollCycle regen now st1) g u = [] ∧
    (pollCycle regen now st1).sent =
      [(t.groupID, t.userID, dispatchContent regen (assignID nn t))] := by
  intro cronValid nn regen t now g u st1 htype h0 hnow hg hu hadd
  rw [AddTask_once_init_gen cronValid nn t htype] at hadd
  injection hadd with hst
  subst hst
  have hmatch : matchesFilter g u (assignID nn t) = true := by
    rcases hg with rfl | rfl <;> rcases hu with rfl | rfl <;> simp [matchesFilter]
  refine ⟨?_, ?_, ?_⟩
  · simp [ListTasks, initConnected, hvals, hmatch]
  · simp [pollCycle, initConnected, zrangeByScore, h0, hnow, processId, hget,
      hdel, zrem, ListTasks, hvals]
  · simp [pollCycle, initConnected, zrangeByScore, h0, hnow, processId, hget,
      hdel, zrem]

/-- Concrete instance of C1: task "t1" due at 100 for group 5 / user 7,
polled at 100, is listed after `AddTask`, gone after the poll, and delivered
exactly once. -/
theorem C1_once_task_lifecycle_witness :
    ListTasks { initConnected with
        oneshot := [("t1", ⟨"t1", "once", "hi", 5, 7, "", 100⟩)],
        zset := [("t1", 100)] } 5 0 =
      [assignID 0 ⟨"t1", "once", "hi", 5, 7, "", 100⟩] ∧
    ListTasks (pollCycle (fun _ _ => none) 100
        { initConnected with
          oneshot := [("t1", ⟨"t1", "once", "hi", 5, 7, "", 100⟩)],
          zset := [("t1", 100)] }) 5 0 = [] ∧
    (pollCycle (fun _ _ => none) 100
        { initConnected with
          oneshot := [("t1", ⟨"t1", "once", "hi", 5, 7, "", 100⟩)],
          zset := [("t1", 100)] }).sent =
      [(5, 7, dispatchContent (fun _ _ => none)
        (assignID 0 ⟨"t1", "once", "hi", 5, 7, "", 100⟩))] :=
  C1_once_task_lifecycle (fun _ => false) 0 (fun _ _ => none)
    ⟨"t1", "once", "hi", 5, 7, "", 100⟩ 100 5 0
    { initConnected with
      oneshot := [("t1", ⟨"t1", "once", "hi", 5, 7, "", 100⟩)],
      zset := [("t1", 100)] }
    rfl (by decide) (by decide) (Or.inr rfl) (Or.inl rfl) (by decide)

/-- C3: tier isolation of the routing step.  A `temporary`-tier record
produces exactly one TTL-bound cache write with a 2-hour (7200 s) TTL — in
particular no namespace upsert; a `personal`- or `chat`-tier record produces
no TTL-cache write, and every namespace upsert it produces goes to the
namespace named after its tier. -/
theorem C3_tier_isolation :
    ∀ (botActive embedOk upsertOk : Bool) (cronValid : String → Bool)
      (nowSec gid : Int) (qq : String) (histID : Nat) (content fullRes : String)
      (st : SchedState),
    ((parseClassifier fullRes).msgType = "temporary" →
      (routeClassified botActive embedOk upsertOk cronValid nowSec gid qq histID
          content fullRes st).2 =
        [RouteEffect.ttlWrite gid qq histID content 7200]) ∧
    ((parseClassifier fullRes).msgType = "personal" ∨
        (parseClassifier fullRes).msgType = "chat" →
      (∀ e ∈ (routeClassified botActive embedOk upsertOk cronValid nowSec gid qq
          histID content fullRes st).2, isTTLWrite e = false) ∧
      (∀ e ∈ (routeClassified botActive embedOk upsertOk cronValid nowSec gid qq
          histID content fullRes st).2, ∀ ns, upsertNamespace e = some ns →
            ns = (parseClassifier fullRes).msgType)) := by
  intro botActive embedOk upsertOk cronValid nowSec gid qq histID content fullRes st
  constructor
  · intro h
    simp [routeClassified, h]
  · intro h
    rcases h with h | h <;>
      cases embedOk <;> cases upsertOk <;>
        simp [routeClassified, h, isTTLWrite, upsertNamespace,
          namespacePersonal, namespaceChat]

/-- Concrete instance of C3: a `temporary` record yields only the 2-hour TTL
write; a `personal` record yields no TTL write and upserts only into its
tier's namespace. -/
theorem C3_tier_isolation_witness :
    (routeClassified true true true (fun _ => true) 0 9 "7" 3 "c"
        "temporary|false|r" initConnected).2 =
      [RouteEffect.ttlWrite 9 "7" 3 "c" 7200] ∧
    (∀ e ∈ (routeClassified true true true (fun _ => true) 0 9 "7" 3 "c"
        "personal|false|r" initConnected).2, isTTLWrite e = false) ∧
    (∀ e ∈ (routeClassified true true true (fun _ => true) 0 9 "7" 3 "c"
        "personal|false|r" initConnected).2, ∀ ns, upsertNamespace e = some ns →
          ns = (parseClassifier "personal|false|r").msgType) :=
  ⟨(C3_tier_isolation true true true (fun _ => true) 0 9 "7" 3 "c"
      "temporary|false|r" initConnected).1 (by decide),
   ((C3_tier_isolation true true true (fun _ => true) 0 9 "7" 3 "c"
      "personal|false|r" initConnected).2 (Or.inl (by decide))).1,
   ((C3_tier_isolation true true true (fun _ => true) 0 9 "7" 3 "c"
      "personal|false|r" initConnected).2 (Or.inl (by decide))).2⟩

/-- C7: for a periodic task successfully added, clearing the in-memory cron
state and the id→handle index (simulated restart) and then calling
`ReloadPeriodicTasks` re-registers a cron entry with the same schedule
expression, destination and content, and rebuilds the id→handle index; and
one-shot tasks are recoverable purely from the durable store — `ListTasks`
is unchanged by clearing the in-memory state, with no reload step. -/
theorem C7_periodic_roundtrip :
    ∀ (cronValid : String → Bool) (nn1 nn2 : Int) (tp tc : ScheduledTask)
      (st1 st2 : SchedState),
    tp.type = "periodic" → cronValid tp.timeExpr = true → tp.id ≠ "" →
    tc.type = "once" →
    AddTask cronValid nn1 initConnected tp = Except.ok st1 →
    AddTask cronValid nn2 st1 tc = Except.ok st2 →
    (∀ g u, ListTasks (clearMem st2) g u = ListTasks st2 g u) ∧
    (∃ e ∈ (ReloadPeriodicTasks cronValid (clearMem st2)).cronEntries,
      e.timeExpr = tp.timeExpr ∧ e.groupID = tp.groupID ∧
      e.userID = tp.userID ∧ e.content = tp.content) ∧
    (hget (ReloadPeriodicTasks cronValid (clearMem st2)).periodicEntries
      tp.id).isSome = true := by
  intro cronValid nn1 nn2 tp tc st1 st2 hpt hcv hid hot h1 h2
  unfold AddTask at h1
  rw [assignID_of_ne nn1 tp hid] at h1
  simp [initConnected, hpt, hcv, hset] at h1
  subst h1
  unfold AddTask at h2
  simp [assignID_type, hot, hset, zadd] at h2
  subst h2
  refine ⟨fun g u => rfl, ?_, ?_⟩
  · refine ⟨⟨0, tp.timeExpr, tp.groupID, tp.userID, tp.content⟩, ?_, rfl, rfl, rfl, rfl⟩
    simp [ReloadPeriodicTasks, reloadStep, clearMem, hcv, hset]
  · simp [ReloadPeriodicTasks, reloadStep, clearMem, hcv, hset, hget]

/-- Concrete instance of C7: periodic task "p1" (daily 8am cron line) plus
one-shot "o1"; after a simulated restart the reload re-registers "p1" with
the same schedule, destination and content, and "o1" is still listed with no
reload. -/
theorem C7_periodic_roundtrip_witness :
    ListTasks (clearMem ⟨true, [("o1", 100)],
        [("o1", ⟨"o1", "once", "hi", 5, 7, "", 100⟩)],
        [("p1", ⟨"p1", "periodic", "ping", 5, 7, "0 0 8 * * *", 0⟩)],
        [⟨0, "0 0 8 * * *", 5, 7, "ping"⟩], [("p1", 0)], 1, true, []⟩) 5 0 =
      ListTasks ⟨true, [("o1", 100)],
        [("o1", ⟨"o1", "once", "hi", 5, 7, "", 100⟩)],
        [("p1", ⟨"p1", "periodic", "ping", 5, 7, "0 0 8 * * *", 0⟩)],
        [⟨0, "0 0 8 * * *", 5, 7, "ping"⟩], [("p1", 0)], 1, true, []⟩ 5 0 ∧
    (∃ e ∈ (ReloadPeriodicTasks (fun _ => true) (clearMem ⟨true, [("o1", 100)],
        [("o1", ⟨"o1", "once", "hi", 5, 7, "", 100⟩)],
        [("p1", ⟨"p1", "periodic", "ping", 5, 7, "0 0 8 * * *", 0⟩)],
        [⟨0, "0 0 8 * * *", 5, 7, "ping"⟩], [("p1", 0)], 1, true, []⟩)).cronEntries,
      e.timeExpr = ("p1", (⟨"p1", "periodic", "ping", 5, 7, "0 0 8 * * *", 0⟩ :
          ScheduledTask)).2.timeExpr ∧
      e.groupID = (5 : Int) ∧ e.userID = (7 : Int) ∧ e.content = "ping") ∧
    (hget (ReloadPeriodicTasks (fun _ => true) (clearMem ⟨true, [("o1", 100)],
        [("o1", ⟨"o1", "once", "hi", 5, 7, "", 100⟩)],
        [("p1", ⟨"p1", "periodic", "ping", 5, 7, "0 0 8 * * *", 0⟩)],
        [⟨0, "0 0 8 * * *", 5, 7, "ping"⟩], [("p1", 0)], 1, true, []⟩)).periodicEntries
      "p1").isSome = true := by
  have h := C7_periodic_roundtrip (fun _ => true) 0 0
    ⟨"p1", "periodic", "ping", 5, 7, "0 0 8 * * *", 0⟩
    ⟨"o1", "once", "hi", 5, 7, "", 100⟩
    ⟨true, [], [], [("p1", ⟨"p1", "periodic", "ping", 5, 7, "0 0 8 * * *", 0⟩)],
      [⟨0, "0 0 8 * * *", 5, 7, "ping"⟩], [("p1", 0)], 1, true, []⟩
    ⟨true, [("o1", 100)], [("o1", ⟨"o1", "once", "hi", 5, 7, "", 100⟩)],
      [("p1", ⟨"p1", "periodic", "ping", 5, 7, "0 0 8 * * *", 0⟩)],
      [⟨0, "0 0 8 * * *", 5, 7, "ping"⟩], [("p1", 0)], 1, true, []⟩
    rfl rfl (by decide) rfl (by decide) (by decide)
  exact ⟨h.1 5 0, h.2.1, h.2.2⟩

theorem zrange_none (now : Int) : ∀ z : List (String × Int),
    (∀ p ∈ z, ¬(0 ≤ p.2 ∧ p.2 ≤ now)) → zrangeByScore z 0 now = [] := by
  intro z
  induction z with
  | nil => intro _; rfl
  | cons p rest ih =>
    intro h
    have hp := h p (List.mem_cons_self p rest)
    have hrest := ih (fun q hq => h q (List.mem_cons_of_mem p hq))
    have hcond : (decide ((0 : Int) ≤ p.2) && decide (p.2 ≤ now)) = false := by
      by_cases h1 : (0 : Int) ≤ p.2
      · have h2 : ¬ p.2 ≤ now := fun hh => hp ⟨h1, hh⟩
        simp [h1, h2]
      · simp [h1]
    unfold zrangeByScore at hrest ⊢
    rw [List.filter_cons, hcond]
    simpa using hrest

theorem zrange_single : ∀ (z : List (String × Int)) (id : String) (s now : Int),
    (z.map Prod.fst).Nodup → (id, s) ∈ z → 0 ≤ s → s ≤ now →
    (∀ p ∈ z, p.1 ≠ id → ¬(0 ≤ p.2 ∧ p.2 ≤ now)) →
    zrangeByScore z 0 now = [id] := by
  intro z
  induction z with
  | nil => intro id s now _ hmem; simp at hmem
  | cons p rest ih =>
    intro id s now hnodup hmem h0 hnow hothers
    have hnodup' : (p.1 :: rest.map Prod.fst).Nodup := by simpa using hnodup
    rcases List.mem_cons.mp hmem with heq | hmem'
    · obtain rfl := heq.symm
      have hcond : (decide ((0 : Int) ≤ ((id, s) : String × Int).2) &&
          decide (((id, s) : String × Int).2 ≤ now)) = true := by simp [h0, hnow]
      have hrest : zrangeByScore rest 0 now = [] := by
        apply zrange_none
        intro q hq
        have hqne : q.1 ≠ id := by
          intro hq1
          apply (List.nodup_cons.mp hnodup').1
          have hqmem : q.1 ∈ rest.map Prod.fst := List.mem_map_of_mem Prod.fst hq
          rw [hq1] at hqmem
          exact hqmem
        exact hothers q (List.mem_cons_of_mem _ hq) hqne
      unfold zrangeByScore at hrest ⊢
      rw [List.filter_cons, hcond]
      simpa using hrest
    · have hpne : p.1 ≠ id := by
        intro hpid
        apply (List.nodup_cons.mp hnodup').1
        rw [hpid]
        exact List.mem_map_of_mem Prod.fst hmem'
      have hcond : (decide ((0 : Int) ≤ p.2) && decide (p.2 ≤ now)) = false := by
        have hp := hothers p (List.mem_cons_self p rest) hpne
        by_cases h1 : (0 : Int) ≤ p.2
        · have h2 : ¬ p.2 ≤ now := fun hh => hp ⟨h1, hh⟩
          simp [h1, h2]
        · simp [h1]
      have hrec := ih id s now (List.nodup_cons.mp hnodup').2 hmem' h0 hnow
        (fun q hq hqne => hothers q (List.mem_cons_of_mem p hq) hqne)
      unfold zrangeByScore at hrec ⊢
      rw [List.filter_cons, hcond]
      simpa using hrec

/-- C8: when the poller finds a due id in the one-shot time index whose
content entry is absent from the one-shot content map, the cycle removes the
stale index entry, delivers nothing, leaves the content map untouched, and
completes as a normal state transition (an already-removed task, not an
error).  The hypotheses say the stale id is the only due index entry of this
cycle and that index members are distinct, as `ZAdd`-built sets are. -/
theorem C8_stale_index_selfheal :
    ∀ (regen : String → Int → Option String) (now s : Int) (id : String)
      (st : SchedState),
    st.connected = true → (st.zset.map Prod.fst).Nodup → (id, s) ∈ st.zset →
    0 ≤ s → s ≤ now → hget st.oneshot id = none →
    (∀ p ∈ st.zset, p.1 ≠ id → ¬(0 ≤ p.2 ∧ p.2 ≤ now)) →
    pollCycle regen now st = { st with zset := zrem st.zset id } ∧
    (pollCycle regen now st).sent = st.sent ∧
    (pollCycle regen now st).oneshot = st.oneshot ∧
    id ∉ (pollCycle regen now st).zset.map Prod.fst := by
  intro regen now s id st hconn hnodup hmem h0 hnow hcontent hothers
  have hrange := zrange_single st.zset id s now hnodup hmem h0 hnow hothers
  have hpoll : pollCycle regen now st = { st with zset := zrem st.zset id } := by
    unfold pollCycle
    rw [if_pos hconn, hrange]
    simp [processId, hcontent]
  refine ⟨hpoll, by rw [hpoll], by rw [hpoll], ?_⟩
  rw [hpoll]
  intro hcontra
  rcases List.mem_map.mp hcontra with ⟨q, hq, hq1⟩
  have := (List.mem_filter.mp hq).2
  rw [hq1] at this
  simp at this

/-- Concrete instance of C8: index entry ("x", 3) due at 5 with no content,
alongside a not-yet-due task "y"; the cycle drops "x" and sends nothing. -/
theorem C8_stale_index_selfheal_witness :
    pollCycle (fun _ _ => none) 5
        ⟨true, [("x", 3), ("y", 99)], [("y", ⟨"y", "once", "c", 1, 2, "", 99⟩)],
          [], [], [], 0, true, []⟩ =
      { (⟨true, [("x", 3), ("y", 99)], [("y", ⟨"y", "once", "c", 1, 2, "", 99⟩)],
          [], [], [], 0, true, []⟩ : SchedState) with
        zset := zrem [("x", 3), ("y", 99)] "x" } ∧
    (pollCycle (fun _ _ => none) 5
        ⟨true, [("x", 3), ("y", 99)], [("y", ⟨"y", "once", "c", 1, 2, "", 99⟩)],
          [], [], [], 0, true, []⟩).sent = [] ∧
    (pollCycle (fun _ _ => none) 5
        ⟨true, [("x", 3), ("y", 99)], [("y", ⟨"y", "once", "c", 1, 2, "", 99⟩)],
          [], [], [], 0, true, []⟩).oneshot =
      [("y", ⟨"y", "once", "c", 1, 2, "", 99⟩)] ∧
    "x" ∉ (pollCycle (fun _ _ => none) 5
        ⟨true, [("x", 3), ("y", 99)], [("y", ⟨"y", "once", "c", 1, 2, "", 99⟩)],
          [], [], [], 0, true, []⟩).zset.map Prod.fst :=
  C8_stale_index_selfheal (fun _ _ => none) 5 3 "x"
    ⟨true, [("x", 3), ("y", 99)], [("y", ⟨"y", "once", "c", 1, 2, "", 99⟩)],
      [], [], [], 0, true, []⟩
    rfl (by decide) (by decide) (by decide) (by decide) (by decide) (by decide)

/-- C9 counterexample: two distinct proactive follow-up tasks created within
the same wall-clock second (`time.Now().Unix() = 100`) receive the same
system-assigned id `proactive_100`, refuting id uniqueness as claimed. -/
theorem C9_counterexample_same_second :
    proactiveTask 100 1 2 "r1" "c1" ≠ proactiveTask 100 1 2 "r2" "c2" ∧
    (proactiveTask 100 1 2 "r1" "c1").id = (proactiveTask 100 1 2 "r2" "c2").id := by
  constructor
  · decide
  · rfl

/-- C9 (amended): system-assigned ids are unique only across distinct
generation timestamps — proactive ids generated at distinct seconds differ,
and auto-assigned ids for the same user at distinct nanoseconds differ; two
tasks generated at the same instant (same second for the proactive path)
share an id. -/
theorem C9_id_uniqueness_amended :
    ∀ (s1 s2 n1 n2 u : Int), 0 ≤ s1 → 0 ≤ s2 → 0 ≤ n1 → 0 ≤ n2 →
    (s1 ≠ s2 → proactiveID s1 ≠ proactiveID s2) ∧
    (n1 ≠ n2 → autoID n1 u ≠ autoID n2 u) := by
  intro s1 s2 n1 n2 u hs1 hs2 hn1 hn2
  constructor
  · intro hne heq
    apply hne
    have hd := congrArg String.data heq
    rw [proactiveID, proactiveID, strData_append, strData_append] at hd
    exact intDec_inj_nonneg hs1 hs2 (strExt (List.append_cancel_left hd))
  · intro hne heq
    apply hne
    have hd := congrArg String.data heq
    rw [autoID, autoID] at hd
    rw [strData_append, strData_append, strData_append,
      strData_append, strData_append, strData_append] at hd
    simp only [List.append_assoc] at hd
    have hdd := List.append_cancel_left hd
    have hlen : (intDec n1).data.length = (intDec n2).data.length := by
      have hl := congrArg List.length hdd
      simp only [List.length_append] at hl
      omega
    exact intDec_inj_nonneg hn1 hn2 (strExt (List.append_inj hdd hlen).1)

/-- Concrete instance of C9 (amended): seconds 1 and 2 give distinct
proactive ids; nanoseconds 3 and 4 give distinct auto ids for user 5. -/
theorem C9_id_uniqueness_witness :
    ((1 : Int) ≠ 2 → proactiveID 1 ≠ proactiveID 2) ∧
    ((3 : Int) ≠ 4 → autoID 3 5 ≠ autoID 4 5) :=
  C9_id_uniqueness_amended 1 2 3 4 5 (by decide) (by decide) (by decide) (by decide)
